import Mathlib

/-!
Verification development for the binary command-sequence transcoder
implemented in `src/cpp/src/app_initializer.cpp` (class `app::AppInitializer`).

The C++ code is embedded shallowly:

* a byte buffer is a `List Nat` (each entry is a byte value, `< 256` for
  buffers that can actually come from a file of `uint8_t`);
* `std::unordered_map<std::string, VrdInfo>` becomes an association list
  `List (List Nat × VrdInfo)`; names (`std::string` built from raw bytes)
  become `List Nat`.  `operator[]`-insertion overwrites the value when the
  key is present and otherwise adds a new entry; iteration order of the
  model is list order (the C++ iteration order is unspecified but
  deterministic within a run — the spec treats it as an opaque
  "catalog iteration order");
* every `throw` becomes an error value of an explicit error type;
* an out-of-bounds access into the underlying `std::vector` (which is
  undefined behavior in the C++ source, not a reported error) is modelled
  as `Option.none` for parsing and as the distinguished error `GenErr.oob`
  for emission.  These are *not* decode errors: the source performs no
  bounds checking of its own.

Arithmetic notes: `uint32_t` values are `Nat`s together with explicit
`% 4294967296` wraparound where the C++ truncates.  In
`parse_binary_sequence` the expression `length - 8` is evaluated at
`uint32_t` width and then zero-extended to `size_t`; the model writes it as
`(length + 4294967296 - 8) % 4294967296`, which agrees with the C++ for
every `length < 4294967296` (and every `length` produced by `read_uint32`
from genuine bytes is below that bound).
-/

namespace App

/-- Mirror of `struct VrdInfo` in `app_initializer.hpp`: a catalog entry for
one named placeholder declaration. -/
structure VrdInfo where
  name : List Nat
  size : Nat
  dst_addr : Nat
  data : List Nat
  is_loaded : Bool
deriving DecidableEq, Repr

/-- The transcoder's catalog, `std::unordered_map<std::string, VrdInfo>`,
modelled as an association list from name bytes to entries. -/
abbrev VrdMap := List (List Nat × VrdInfo)

/-- Mirror of `AppInitializer::read_uint32`: little-endian decoding of four
byte values. -/
def toNat4 (b0 b1 b2 b3 : Nat) : Nat :=
  b0 + 256 * b1 + 65536 * b2 + 16777216 * b3

/-- Mirror of `AppInitializer::append_uint32`: little-endian encoding of the
low 32 bits of a value, written as the four bytes pushed by the C++ code
(`static_cast<uint8_t>(value >> 8*k)`). -/
def toLE4 (n : Nat) : List Nat :=
  [n % 256, n / 256 % 256, n / 65536 % 256, n / 16777216 % 256]

/-- Association-list lookup, mirroring `vrd_map_.find` / `vrd_map_.at`. -/
def mapFind (m : VrdMap) (k : List Nat) : Option VrdInfo :=
  match m with
  | [] => none
  | (k2, v) :: rest => if k2 = k then some v else mapFind rest k

/-- Association-list insert-or-overwrite, mirroring
`vrd_map_[name] = vrd_info` (overwrites the entry when the key is present,
otherwise adds a new entry). -/
def mapInsert (m : VrdMap) (k : List Nat) (v : VrdInfo) : VrdMap :=
  match m with
  | [] => [(k, v)]
  | (k2, v2) :: rest =>
    if k2 = k then (k2, v) :: rest else (k2, v2) :: mapInsert rest k v

/-- In-place update of the entry found for `k`, mirroring
`it->second.data = data; it->second.is_loaded = true;` in
`AppInitializer::load_vrd_data`. -/
def mapUpdate (m : VrdMap) (k : List Nat) (d : List Nat) : VrdMap :=
  match m with
  | [] => []
  | (k2, v) :: rest =>
    if k2 = k then (k2, { v with data := d, is_loaded := true }) :: rest
    else (k2, v) :: mapUpdate rest k d

/-- The catalog entry built by `AppInitializer::parse_binary_sequence` for a
placeholder-declaration record whose body (name, size, destination
address) starts the suffix `body`: name is the first `nameLen` bytes, the
declared size and destination address are the two little-endian words
that follow, the payload starts empty and the entry starts unloaded. -/
def parsedVrd (body : List Nat) (nameLen : Nat) : VrdInfo :=
  { name := body.take nameLen
    size := toNat4 (body.getD nameLen 0) (body.getD (nameLen + 1) 0)
      (body.getD (nameLen + 2) 0) (body.getD (nameLen + 3) 0)
    dst_addr := toNat4 (body.getD (nameLen + 4) 0) (body.getD (nameLen + 5) 0)
      (body.getD (nameLen + 6) 0) (body.getD (nameLen + 7) 0)
    data := []
    is_loaded := false }

/-- Loop body of `AppInitializer::parse_binary_sequence`, recursing on the
unprocessed suffix of the buffer.  `none` models an out-of-bounds vector
access (undefined behavior in the C++), which happens when fewer than four
bytes follow a tag byte, or when a placeholder-declaration record's name,
size, or destination-address bytes extend past the buffer end.  Note that
the source performs no other validation: for a non-placeholder tag the
cursor advance `pos += length` may jump past the buffer end, silently
ending the loop. -/
def parseLoop : List Nat → VrdMap → Option VrdMap
  | [], m => some m
  | [_], _ => none
  | [_, _], _ => none
  | [_, _, _], _ => none
  | [_, _, _, _], _ => none
  | t :: b0 :: b1 :: b2 :: b3 :: body, m =>
    let length := toNat4 b0 b1 b2 b3
    if t = 2 then
      let nameLen := (length + 4294967296 - 8) % 4294967296
      if nameLen + 8 ≤ body.length then
        parseLoop (body.drop (nameLen + 8))
          (mapInsert m (body.take nameLen) (parsedVrd body nameLen))
      else none
    else
      parseLoop (body.drop length) m
termination_by buf _ => buf.length
decreasing_by
  all_goals simp_wf
  all_goals omega

/-- Mirror of `AppInitializer::parse_binary_sequence` run from an empty
catalog, as the constructor does. -/
def parse_binary_sequence (buf : List Nat) : Option VrdMap :=
  parseLoop buf []

/-- Error taxonomy of `AppInitializer::load_vrd_data` (each `throw` site
becomes one constructor). -/
inductive LoadErr where
  | notFound (name : List Nat)
  | sizeMismatch (name : List Nat) (expected got : Nat)
deriving DecidableEq, Repr

/-- Mirror of `AppInitializer::load_vrd_data` at the catalog level: look the
name up, reject a payload whose length differs from the declared size, and
otherwise store the payload and set the loaded flag.  The checks happen
before any mutation, exactly as in the C++ (both throws precede the
assignments). -/
def load_vrd_data (m : VrdMap) (vrd_name : List Nat) (data : List Nat) :
    Except LoadErr VrdMap :=
  match mapFind m vrd_name with
  | none => .error (.notFound vrd_name)
  | some v =>
    if data.length ≠ v.size then
      .error (.sizeMismatch vrd_name v.size data.length)
    else
      .ok (mapUpdate m vrd_name data)

/-- Error taxonomy of `AppInitializer::generate_init_sequence`:
`unfilled` is the "VRD data not loaded" throw, `notFound` is the
`std::out_of_range` raised by `vrd_map_.at`, `unknownTag` is the
"Unknown command type" throw, and `oob` models an out-of-bounds vector
access (undefined behavior in the C++, e.g. `copy_bytes` past the buffer
end), which the source does not guard against. -/
inductive GenErr where
  | unfilled (name : List Nat)
  | notFound (name : List Nat)
  | unknownTag (tag : Nat)
  | oob
deriving DecidableEq, Repr

/-- Emission of one record by `AppInitializer::generate_init_sequence`:
the bytes the loop body appends to `init_sequence` for the record starting
at the current cursor, whose tag byte is `t`, whose four length bytes are
`b0..b3`, and whose remaining buffer suffix is `body`.
Tags 1 (`APB_WRITE`) and 4 (`DMA_WRITE`) are copied through: the original
tag byte, the re-encoded length, and `length` body bytes (`copy_bytes`
reads past the end — modelled `oob` — when the declared length exceeds the
remaining buffer).  Tag 2 (`VRD_INFO`) re-decodes the name (the
`std::string` constructor reads past the end, modelled `oob`, when the
name length exceeds the remaining buffer), looks the name up with
`vrd_map_.at` (whose `std::out_of_range` is modelled `notFound`), and
emits one DMA-write record with body
`dst_addr || payload size || payload` and length field `payload size + 8`.
Any other tag throws "Unknown command type". -/
def genStep (t b0 b1 b2 b3 : Nat) (body : List Nat) (m : VrdMap) :
    Except GenErr (List Nat) :=
  let length := toNat4 b0 b1 b2 b3
  if t = 1 ∨ t = 4 then
    if length ≤ body.length then .ok (t :: toLE4 length ++ body.take length)
    else .error .oob
  else if t = 2 then
    let nameLen := (length + 4294967296 - 8) % 4294967296
    if nameLen ≤ body.length then
      match mapFind m (body.take nameLen) with
      | none => .error (.notFound (body.take nameLen))
      | some v => .ok (4 :: toLE4 (v.data.length + 8) ++ toLE4 v.dst_addr ++
          toLE4 v.data.length ++ v.data)
    else .error .oob
  else .error (.unknownTag t)

/-- Loop of `AppInitializer::generate_init_sequence`, recursing on the
unprocessed suffix and returning the bytes emitted for that suffix.  Each
iteration reads the tag byte and the 4-byte length (`read_uint32` reads
past the end — modelled `oob` — when fewer than four bytes follow the
tag), appends the record's emission `genStep` to the output, and advances
the cursor by the declared length (`pos += length` in every branch of the
C++ switch; when a record's own emission throws, the loop body never
reaches the advance, which `Except.bind`'s short-circuit reproduces). -/
def generateLoop : List Nat → VrdMap → Except GenErr (List Nat)
  | [], _ => .ok []
  | [_], _ => .error .oob
  | [_, _], _ => .error .oob
  | [_, _, _], _ => .error .oob
  | [_, _, _, _], _ => .error .oob
  | t :: b0 :: b1 :: b2 :: b3 :: body, m =>
    let tailRes := generateLoop (body.drop (toNat4 b0 b1 b2 b3)) m
    (genStep t b0 b1 b2 b3 body m).bind (fun head => tailRes.map (fun out => head ++ out))
termination_by buf _ => buf.length
decreasing_by
  all_goals simp_wf
  all_goals omega

/-- The "all VRDs loaded" precondition check at the top of
`AppInitializer::generate_init_sequence`: returns the name of the first
entry in catalog iteration order whose data has not been loaded, or `none`
when every entry is loaded. -/
def checkLoaded : VrdMap → Option (List Nat)
  | [] => none
  | (n, v) :: rest => if v.is_loaded then checkLoaded rest else some n

/-- The transcoder state: the raw input buffer `binary_sequence_` and the
catalog `vrd_map_` (the two private fields of `app::AppInitializer`). -/
structure AppInitializer where
  binary_sequence_ : List Nat
  vrd_map_ : VrdMap
deriving DecidableEq, Repr

/-- Mirror of the `AppInitializer` constructor applied to the bytes read
from the file: parse the buffer and keep both buffer and catalog.  `none`
models the constructor hitting an out-of-bounds access inside
`parse_binary_sequence`. -/
def mkAppInitializer (buf : List Nat) : Option AppInitializer :=
  (parse_binary_sequence buf).map (fun m => ⟨buf, m⟩)

/-- Mirror of `AppInitializer::load_vrd_data` at the object level: only the
catalog field is touched, the buffer is untouched. -/
def AppInitializer.load_vrd_data (a : AppInitializer) (vrd_name data : List Nat) :
    Except LoadErr AppInitializer :=
  match App.load_vrd_data a.vrd_map_ vrd_name data with
  | .error e => .error e
  | .ok m => .ok ⟨a.binary_sequence_, m⟩

/-- Mirror of `AppInitializer::generate_init_sequence`: first check that
every catalog entry is loaded (throwing "VRD data not loaded" for the
first unloaded one in iteration order), then run the emission loop over
the original buffer. -/
def generate_init_sequence (a : AppInitializer) : Except GenErr (List Nat) :=
  match checkLoaded a.vrd_map_ with
  | some n => .error (.unfilled n)
  | none => generateLoop a.binary_sequence_ a.vrd_map_

/-- Mirror of `AppInitializer::get_vrd_count`. -/
def get_vrd_count (a : AppInitializer) : Nat := a.vrd_map_.length

/-- Mirror of `AppInitializer::has_vrd`. -/
def has_vrd (a : AppInitializer) (vrd_name : List Nat) : Bool :=
  (mapFind a.vrd_map_ vrd_name).isSome

/-! ### Record-level description of well-formed input buffers

The spec describes the input as a flat concatenation of records
`tag (1 byte) || length (4 bytes LE) || body (length bytes)`.  The
following serializer produces exactly such buffers, so theorems about
"well-formed inputs composed of records" quantify over record lists and
apply the transcoder to their serialization. -/

/-- One record of the wire format: a tag byte and a body. -/
structure SRec where
  tag : Nat
  body : List Nat
deriving DecidableEq, Repr

/-- Serialize one record: tag byte, 4-byte little-endian body length, body. -/
def serRec (r : SRec) : List Nat :=
  r.tag :: toLE4 r.body.length ++ r.body

/-- Serialize a record list by concatenation (no header, no trailer). -/
def serialize (rs : List SRec) : List Nat :=
  (rs.map serRec).flatten

/-- A placeholder-declaration record (tag 0x02) for `name` with declared
size `size` and destination address `dst`: its body is
`name || size (4 bytes LE) || dst (4 bytes LE)`. -/
def declRec (name : List Nat) (size dst : Nat) : SRec :=
  ⟨2, name ++ toLE4 size ++ toLE4 dst⟩

/-- A well-formed pass-through record: a direct-write (tag 0x01) or
transfer-write (tag 0x04) record whose body is made of bytes and whose
length fits the 4-byte length field. -/
abbrev WfPass (r : SRec) : Prop :=
  (r.tag = 1 ∨ r.tag = 4) ∧ r.body.length < 4294967296 ∧ ∀ b ∈ r.body, b < 256

/-- A record the parse pass skips: any tag other than 0x02, with a body
length that fits the length field. -/
abbrev WfSkip (r : SRec) : Prop :=
  r.tag ≠ 2 ∧ r.body.length < 4294967296

/-! ### Arithmetic and serializer helper lemmas -/

theorem toLE4_length (n : Nat) : (toLE4 n).length = 4 := rfl

theorem toNat4_encode (L : Nat) (h : L < 4294967296) :
    toNat4 (L % 256) (L / 256 % 256) (L / 65536 % 256) (L / 16777216 % 256) = L := by
  unfold toNat4; omega

theorem serRec_cons (r : SRec) (rest : List Nat) :
    serRec r ++ rest =
      r.tag :: r.body.length % 256 :: r.body.length / 256 % 256 ::
        r.body.length / 65536 % 256 :: r.body.length / 16777216 % 256 ::
        (r.body ++ rest) := by
  simp [serRec, toLE4]

theorem serialize_nil : serialize [] = [] := rfl

theorem serialize_cons (r : SRec) (rs : List SRec) :
    serialize (r :: rs) = serRec r ++ serialize rs := by
  simp [serialize]

theorem serialize_append (rs1 rs2 : List SRec) :
    serialize (rs1 ++ rs2) = serialize rs1 ++ serialize rs2 := by
  simp [serialize]

/-- The parse pass skips one serialized record of any tag other than 0x02. -/
theorem parseLoop_skip (r : SRec) (rest : List Nat) (m : VrdMap)
    (ht : r.tag ≠ 2) (hlen : r.body.length < 4294967296) :
    parseLoop (serRec r ++ rest) m = parseLoop rest m := by
  rw [serRec_cons]
  rw [parseLoop.eq_def]
  dsimp only
  rw [if_neg ht]
  rw [toNat4_encode _ hlen, List.drop_left]

/-- The parse loop on an exhausted buffer returns the accumulated catalog. -/
theorem parseLoop_nil (m : VrdMap) : parseLoop [] m = some m := by
  rw [parseLoop.eq_def]

/-- Unfolding equation of the parse loop at a buffer with at least a tag
byte and four length bytes. -/
theorem parseLoop_cons (t b0 b1 b2 b3 : Nat) (body : List Nat) (m : VrdMap) :
    parseLoop (t :: b0 :: b1 :: b2 :: b3 :: body) m =
      (if t = 2 then
        if (toNat4 b0 b1 b2 b3 + 4294967296 - 8) % 4294967296 + 8 ≤ body.length then
          parseLoop (body.drop ((toNat4 b0 b1 b2 b3 + 4294967296 - 8) % 4294967296 + 8))
            (mapInsert m (body.take ((toNat4 b0 b1 b2 b3 + 4294967296 - 8) % 4294967296))
              (parsedVrd body ((toNat4 b0 b1 b2 b3 + 4294967296 - 8) % 4294967296)))
        else none
      else parseLoop (body.drop (toNat4 b0 b1 b2 b3)) m) := by
  rw [parseLoop.eq_def]

/-- The catalog entry parsed from a serialized placeholder-declaration body
is exactly the declaration's name, size, and destination address. -/
theorem parsedVrd_decl (name : List Nat) (S D : Nat) (rest : List Nat)
    (hS : S < 4294967296) (hD : D < 4294967296) :
    parsedVrd (name ++ (toLE4 S ++ (toLE4 D ++ rest))) name.length =
      ⟨name, S, D, [], false⟩ := by
  have hget : ∀ i d, (name ++ (toLE4 S ++ (toLE4 D ++ rest))).getD (name.length + i) d =
      (toLE4 S ++ (toLE4 D ++ rest)).getD i d := by
    intro i d
    rw [List.getD_append_right _ _ _ _ (Nat.le_add_right _ _)]
    simp
  have hget0 : ∀ d, (name ++ (toLE4 S ++ (toLE4 D ++ rest))).getD name.length d =
      (toLE4 S ++ (toLE4 D ++ rest)).getD 0 d := by
    intro d
    simpa using hget 0 d
  unfold parsedVrd
  rw [hget0, hget 1, hget 2, hget 3, hget 4, hget 5, hget 6, hget 7, List.take_left]
  simp only [toLE4, List.cons_append, List.nil_append, List.getD_cons_zero,
    List.getD_cons_succ]
  rw [toNat4_encode S hS, toNat4_encode D hD]

/-- The parse pass consumes one serialized placeholder-declaration record
and performs the catalog insert with the declared size and address. -/
theorem parseLoop_decl (name : List Nat) (S D : Nat) (rest : List Nat) (m : VrdMap)
    (hn : name.length + 8 < 4294967296) (hS : S < 4294967296) (hD : D < 4294967296) :
    parseLoop (serRec (declRec name S D) ++ rest) m =
      parseLoop rest (mapInsert m name ⟨name, S, D, [], false⟩) := by
  have hb : (declRec name S D).body.length = name.length + 8 := by
    simp [declRec, toLE4]
  rw [serRec_cons, hb]
  have htag : (declRec name S D).tag = 2 := rfl
  rw [htag]
  have hbody : (declRec name S D).body ++ rest =
      name ++ (toLE4 S ++ (toLE4 D ++ rest)) := by
    simp [declRec, List.append_assoc]
  rw [hbody, parseLoop_cons, if_pos rfl, toNat4_encode _ hn]
  have hnl : (name.length + 8 + 4294967296 - 8) % 4294967296 = name.length := by omega
  rw [hnl]
  have hlen8 : name.length + 8 ≤ (name ++ (toLE4 S ++ (toLE4 D ++ rest))).length := by
    simp [toLE4]
  rw [if_pos hlen8, List.take_left, parsedVrd_decl name S D rest hS hD]
  have hdrop : (name ++ (toLE4 S ++ (toLE4 D ++ rest))).drop (name.length + 8) = rest := by
    rw [show name ++ (toLE4 S ++ (toLE4 D ++ rest)) = (name ++ toLE4 S ++ toLE4 D) ++ rest by
      simp [List.append_assoc]]
    rw [show name.length + 8 = (name ++ toLE4 S ++ toLE4 D).length by simp [toLE4]]
    exact List.drop_left _ _
  rw [hdrop]

/-- The parse pass over a serialized list of non-placeholder records leaves
the catalog untouched. -/
theorem parseLoop_serialize_skip (rs : List SRec) (z : List Nat) (m : VrdMap)
    (h : ∀ r ∈ rs, WfSkip r) :
    parseLoop (serialize rs ++ z) m = parseLoop z m := by
  induction rs generalizing m with
  | nil => simp [serialize]
  | cons r rs ih =>
    obtain ⟨h1, h2⟩ := h r (by simp)
    rw [serialize_cons, List.append_assoc, parseLoop_skip r _ m h1 h2,
      ih m (fun r hr => h r (List.mem_cons_of_mem _ hr))]

/-- Unfolding equation for the emission loop at a buffer with at least a
tag byte and four length bytes. -/
theorem generateLoop_cons (t b0 b1 b2 b3 : Nat) (body : List Nat) (m : VrdMap) :
    generateLoop (t :: b0 :: b1 :: b2 :: b3 :: body) m =
      (genStep t b0 b1 b2 b3 body m).bind (fun head =>
        (generateLoop (body.drop (toNat4 b0 b1 b2 b3)) m).map
          (fun out => head ++ out)) := by
  rw [generateLoop.eq_def]

/-- The emission loop on an exhausted buffer returns an empty output. -/
theorem generateLoop_nil (m : VrdMap) : generateLoop [] m = .ok [] := by
  rw [generateLoop.eq_def]

/-- Emission copies one serialized direct-write or transfer-write record
verbatim and continues. -/
theorem generateLoop_pass (r : SRec) (rest : List Nat) (m : VrdMap)
    (ht : r.tag = 1 ∨ r.tag = 4) (hlen : r.body.length < 4294967296) :
    generateLoop (serRec r ++ rest) m =
      (generateLoop rest m).map (fun out => serRec r ++ out) := by
  rw [serRec_cons, generateLoop_cons, toNat4_encode _ hlen, List.drop_left]
  have hstep : genStep r.tag (r.body.length % 256) (r.body.length / 256 % 256)
      (r.body.length / 65536 % 256) (r.body.length / 16777216 % 256)
      (r.body ++ rest) m = .ok (serRec r) := by
    simp only [genStep]
    rw [toNat4_encode _ hlen, if_pos ht,
      if_pos (by simp : r.body.length ≤ (r.body ++ rest).length), List.take_left]
    simp [serRec]
  rw [hstep]
  cases h : generateLoop rest m with
  | error e => simp [Except.bind]
  | ok out => simp [Except.bind, Except.map]

/-- Unfolding of `genStep` at the placeholder-declaration tag. -/
theorem genStep_two (b0 b1 b2 b3 : Nat) (body : List Nat) (m : VrdMap) :
    genStep 2 b0 b1 b2 b3 body m =
      (if (toNat4 b0 b1 b2 b3 + 4294967296 - 8) % 4294967296 ≤ body.length then
        match mapFind m
            (body.take ((toNat4 b0 b1 b2 b3 + 4294967296 - 8) % 4294967296)) with
        | none => .error (.notFound
            (body.take ((toNat4 b0 b1 b2 b3 + 4294967296 - 8) % 4294967296)))
        | some v => .ok (4 :: toLE4 (v.data.length + 8) ++ toLE4 v.dst_addr ++
            toLE4 v.data.length ++ v.data)
      else .error .oob) := by
  simp [genStep]

/-- Emission of one serialized placeholder-declaration record whose name is
in the catalog: the record is replaced by a DMA-write record carrying the
entry's payload and destination address. -/
theorem generateLoop_decl (name : List Nat) (S D : Nat) (rest : List Nat) (m : VrdMap)
    (v : VrdInfo) (hn : name.length + 8 < 4294967296)
    (hfind : mapFind m name = some v) :
    generateLoop (serRec (declRec name S D) ++ rest) m =
      (generateLoop rest m).map (fun out =>
        4 :: toLE4 (v.data.length + 8) ++ toLE4 v.dst_addr ++
          toLE4 v.data.length ++ v.data ++ out) := by
  have hb : (declRec name S D).body.length = name.length + 8 := by
    simp [declRec, toLE4]
  rw [serRec_cons, hb]
  have htag : (declRec name S D).tag = 2 := rfl
  rw [htag]
  have hbody : (declRec name S D).body ++ rest =
      name ++ (toLE4 S ++ (toLE4 D ++ rest)) := by
    simp [declRec, List.append_assoc]
  rw [hbody, generateLoop_cons, toNat4_encode _ hn]
  have hdrop : (name ++ (toLE4 S ++ (toLE4 D ++ rest))).drop (name.length + 8) = rest := by
    rw [show name ++ (toLE4 S ++ (toLE4 D ++ rest)) = (name ++ toLE4 S ++ toLE4 D) ++ rest by
      simp [List.append_assoc]]
    rw [show name.length + 8 = (name ++ toLE4 S ++ toLE4 D).length by simp [toLE4]]
    exact List.drop_left _ _
  rw [hdrop]
  have hnl : (name.length + 8 + 4294967296 - 8) % 4294967296 = name.length := by omega
  have hstep : genStep 2 ((name.length + 8) % 256) ((name.length + 8) / 256 % 256)
      ((name.length + 8) / 65536 % 256) ((name.length + 8) / 16777216 % 256)
      (name ++ (toLE4 S ++ (toLE4 D ++ rest))) m =
      .ok (4 :: toLE4 (v.data.length + 8) ++ toLE4 v.dst_addr ++
        toLE4 v.data.length ++ v.data) := by
    rw [genStep_two, toNat4_encode _ hn, hnl]
    have hlen8 : name.length ≤ (name ++ (toLE4 S ++ (toLE4 D ++ rest))).length := by
      simp [toLE4]
    rw [if_pos hlen8, List.take_left, hfind]
  rw [hstep]
  cases h : generateLoop rest m with
  | error e => simp [Except.bind]
  | ok out => simp [Except.bind, Except.map]

/-- Emission of one serialized record whose tag is not 0x01, 0x02 or 0x04
fails with the unknown-record-kind error carrying the numeric tag,
regardless of what follows in the buffer. -/
theorem generateLoop_unknown (r : SRec) (rest : List Nat) (m : VrdMap)
    (ht1 : r.tag ≠ 1) (ht2 : r.tag ≠ 2) (ht4 : r.tag ≠ 4) :
    generateLoop (serRec r ++ rest) m = .error (.unknownTag r.tag) := by
  rw [serRec_cons, generateLoop_cons]
  have hstep : genStep r.tag (r.body.length % 256) (r.body.length / 256 % 256)
      (r.body.length / 65536 % 256) (r.body.length / 16777216 % 256)
      (r.body ++ rest) m = .error (.unknownTag r.tag) := by
    simp only [genStep]
    rw [if_neg (by tauto : ¬(r.tag = 1 ∨ r.tag = 4)), if_neg ht2]
  rw [hstep]
  simp [Except.bind]

/-- Emission over a serialized list of pass-through records prepends them
verbatim to whatever the rest of the buffer emits. -/
theorem generateLoop_serialize_pass (rs : List SRec) (z : List Nat) (m : VrdMap)
    (h : ∀ r ∈ rs, WfPass r) :
    generateLoop (serialize rs ++ z) m =
      (generateLoop z m).map (fun out => serialize rs ++ out) := by
  induction rs generalizing m with
  | nil =>
    cases hz : generateLoop z m with
    | error e => simp [serialize, hz, Except.map]
    | ok out => simp [serialize, hz, Except.map]
  | cons r rs ih =>
    obtain ⟨h1, h2, _⟩ := h r (by simp)
    rw [serialize_cons, List.append_assoc, generateLoop_pass r _ m h1 h2,
      ih m (fun r hr => h r (List.mem_cons_of_mem _ hr))]
    cases hz : generateLoop z m with
    | error e => simp [Except.map]
    | ok out => simp [serialize_cons, Except.map]

/-- Emission over a serialized buffer made only of pass-through records
reproduces the buffer byte for byte. -/
theorem generateLoop_serialize_id (rs : List SRec) (m : VrdMap)
    (h : ∀ r ∈ rs, WfPass r) :
    generateLoop (serialize rs) m = .ok (serialize rs) := by
  have h0 := generateLoop_serialize_pass rs [] m h
  rw [generateLoop_nil] at h0
  simpa [Except.map] using h0

/-! ### Catalog (association list) lemmas -/

theorem mapFind_mapInsert_self (m : VrdMap) (k : List Nat) (v : VrdInfo) :
    mapFind (mapInsert m k v) k = some v := by
  induction m with
  | nil => simp [mapInsert, mapFind]
  | cons p rest ih =>
    obtain ⟨k2, v2⟩ := p
    by_cases h : k2 = k
    · simp [mapInsert, h, mapFind]
    · simp [mapInsert, h, mapFind, ih]

theorem mapFind_mapInsert_ne (m : VrdMap) (k k2 : List Nat) (v : VrdInfo)
    (h : k2 ≠ k) : mapFind (mapInsert m k v) k2 = mapFind m k2 := by
  have hne : ¬(k = k2) := fun hh => h hh.symm
  induction m with
  | nil => simp [mapInsert, mapFind, hne]
  | cons p rest ih =>
    obtain ⟨k3, v3⟩ := p
    by_cases h3 : k3 = k
    · subst h3
      simp [mapInsert, mapFind, hne]
    · simp [mapInsert, h3, mapFind, ih]

theorem mapFind_mapUpdate_self (m : VrdMap) (k : List Nat) (v : VrdInfo)
    (d : List Nat) (h : mapFind m k = some v) :
    mapFind (mapUpdate m k d) k = some { v with data := d, is_loaded := true } := by
  induction m with
  | nil => simp [mapFind] at h
  | cons p rest ih =>
    obtain ⟨k2, v2⟩ := p
    by_cases h2 : k2 = k
    · rw [mapFind] at h
      rw [if_pos h2] at h
      cases h
      simp [mapUpdate, h2, mapFind]
    · rw [mapFind] at h
      rw [if_neg h2] at h
      simp [mapUpdate, h2, mapFind, ih h]

theorem mapFind_mapUpdate_ne (m : VrdMap) (k k2 : List Nat) (d : List Nat)
    (h : k2 ≠ k) : mapFind (mapUpdate m k d) k2 = mapFind m k2 := by
  have hne : ¬(k = k2) := fun hh => h hh.symm
  induction m with
  | nil => simp [mapUpdate]
  | cons p rest ih =>
    obtain ⟨k3, v3⟩ := p
    by_cases h3 : k3 = k
    · subst h3
      simp [mapUpdate, mapFind, hne]
    · simp [mapUpdate, h3, mapFind, ih]

theorem mapUpdate_keys (m : VrdMap) (k : List Nat) (d : List Nat) :
    (mapUpdate m k d).map Prod.fst = m.map Prod.fst := by
  induction m with
  | nil => simp [mapUpdate]
  | cons p rest ih =>
    obtain ⟨k2, v2⟩ := p
    by_cases h2 : k2 = k
    · simp [mapUpdate, h2]
    · simp [mapUpdate, h2, ih]

theorem mapUpdate_of_absent (m : VrdMap) (k : List Nat) (d : List Nat)
    (h : mapFind m k = none) : mapUpdate m k d = m := by
  induction m with
  | nil => simp [mapUpdate]
  | cons p rest ih =>
    obtain ⟨k2, v2⟩ := p
    rw [mapFind] at h
    by_cases h2 : k2 = k
    · rw [if_pos h2] at h
      cases h
    · rw [if_neg h2] at h
      simp [mapUpdate, h2, ih h]

/-- The fixed fields (name, declared size, destination address) of every
catalog entry survive a payload update untouched. -/
theorem mapUpdate_fixed (m : VrdMap) (k k2 : List Nat) (d : List Nat) :
    (mapFind (mapUpdate m k d) k2).map (fun v => (v.name, v.size, v.dst_addr)) =
      (mapFind m k2).map (fun v => (v.name, v.size, v.dst_addr)) := by
  by_cases h : k2 = k
  · subst h
    cases hf : mapFind m k2 with
    | none => rw [mapUpdate_of_absent m k2 d hf, hf]
    | some v =>
      rw [mapFind_mapUpdate_self m k2 v d hf]
      simp
  · rw [mapFind_mapUpdate_ne m k k2 d h]

/-- `checkLoaded` returns exactly the name of the first entry, in catalog
iteration order, whose payload has not been loaded. -/
theorem checkLoaded_eq_find (m : VrdMap) :
    checkLoaded m = (m.find? (fun p => !p.2.is_loaded)).map Prod.fst := by
  induction m with
  | nil => rfl
  | cons p rest ih =>
    by_cases h : p.2.is_loaded
    · rw [checkLoaded, if_pos h, ih, List.find?_cons_of_neg _ (by simp [h])]
    · rw [checkLoaded, if_neg h, List.find?_cons_of_pos _ (by simp [h])]
      rfl

/-- The invariant of §3 of the spec: a loaded entry's payload length equals
its declared size. -/
abbrev CatalogInv (m : VrdMap) : Prop :=
  ∀ p ∈ m, p.2.is_loaded = true → p.2.data.length = p.2.size

theorem mapInsert_inv (m : VrdMap) (k : List Nat) (v : VrdInfo)
    (hm : CatalogInv m) (hv : v.is_loaded = false) :
    CatalogInv (mapInsert m k v) := by
  induction m with
  | nil =>
    intro p hp
    simp [mapInsert] at hp
    subst hp
    simp [hv]
  | cons q rest ih =>
    obtain ⟨k2, v2⟩ := q
    intro p hp
    by_cases h2 : k2 = k
    · rw [mapInsert] at hp
      rw [if_pos h2] at hp
      rcases List.mem_cons.mp hp with h | h
      · subst h
        simp [hv]
      · exact hm p (List.mem_cons_of_mem _ h)
    · rw [mapInsert] at hp
      rw [if_neg h2] at hp
      rcases List.mem_cons.mp hp with h | h
      · subst h
        exact hm (k2, v2) (List.mem_cons_self _ _)
      · exact ih (fun q hq => hm q (List.mem_cons_of_mem _ hq)) p h

theorem mapUpdate_inv (m : VrdMap) (k : List Nat) (v : VrdInfo) (d : List Nat)
    (hm : CatalogInv m) (hfind : mapFind m k = some v) (hd : d.length = v.size) :
    CatalogInv (mapUpdate m k d) := by
  induction m with
  | nil =>
    intro p hp
    simp [mapUpdate] at hp
  | cons q rest ih =>
    obtain ⟨k2, v2⟩ := q
    intro p hp
    rw [mapFind] at hfind
    by_cases h2 : k2 = k
    · rw [if_pos h2] at hfind
      cases hfind
      rw [mapUpdate] at hp
      rw [if_pos h2] at hp
      rcases List.mem_cons.mp hp with h | h
      · subst h
        intro _
        exact hd
      · exact hm p (List.mem_cons_of_mem _ h)
    · rw [if_neg h2] at hfind
      rw [mapUpdate] at hp
      rw [if_neg h2] at hp
      rcases List.mem_cons.mp hp with h | h
      · subst h
        exact hm (k2, v2) (List.mem_cons_self _ _)
      · exact ih (fun q hq => hm q (List.mem_cons_of_mem _ hq)) hfind p h

/-- Any successful parse pass starting from a catalog satisfying the
invariant produces a catalog satisfying it: every inserted entry starts
unloaded with an empty payload. -/
theorem parseLoop_inv (buf : List Nat) (m0 : VrdMap) :
    CatalogInv m0 → ∀ m, parseLoop buf m0 = some m → CatalogInv m := by
  induction buf, m0 using parseLoop.induct with
  | case1 m0 =>
    intro h0 m hm
    rw [parseLoop_nil] at hm
    cases hm
    exact h0
  | case2 a m0 =>
    intro h0 m hm
    rw [parseLoop.eq_def] at hm
    simp at hm
  | case3 a b m0 =>
    intro h0 m hm
    rw [parseLoop.eq_def] at hm
    simp at hm
  | case4 a b c m0 =>
    intro h0 m hm
    rw [parseLoop.eq_def] at hm
    simp at hm
  | case5 a b c d m0 =>
    intro h0 m hm
    rw [parseLoop.eq_def] at hm
    simp at hm
  | case6 b0 b1 b2 b3 body m0 L nl hle ih =>
    intro h0 m hm
    rw [parseLoop_cons, if_pos rfl,
      if_pos ((by exact hle) :
        (toNat4 b0 b1 b2 b3 + 4294967296 - 8) % 4294967296 + 8 ≤ body.length)] at hm
    exact ih (mapInsert_inv _ _ _ h0 rfl) m hm
  | case7 b0 b1 b2 b3 body m0 L nl hle =>
    intro h0 m hm
    rw [parseLoop_cons, if_pos rfl,
      if_neg ((by exact hle) :
        ¬((toNat4 b0 b1 b2 b3 + 4294967296 - 8) % 4294967296 + 8 ≤ body.length))] at hm
    cases hm
  | case8 t b0 b1 b2 b3 body m0 L ht ih =>
    intro h0 m hm
    rw [parseLoop_cons, if_neg ht] at hm
    exact ih h0 m hm

/-- The parse pass never removes catalog keys: any name present before a
parse step is present afterwards. -/
theorem parseLoop_keys (buf : List Nat) (m0 : VrdMap) :
    ∀ m, parseLoop buf m0 = some m →
    ∀ k, (mapFind m0 k).isSome → (mapFind m k).isSome := by
  induction buf, m0 using parseLoop.induct with
  | case1 m0 =>
    intro m hm k hk
    rw [parseLoop_nil] at hm
    cases hm
    exact hk
  | case2 a m0 =>
    intro m hm
    rw [parseLoop.eq_def] at hm
    simp at hm
  | case3 a b m0 =>
    intro m hm
    rw [parseLoop.eq_def] at hm
    simp at hm
  | case4 a b c m0 =>
    intro m hm
    rw [parseLoop.eq_def] at hm
    simp at hm
  | case5 a b c d m0 =>
    intro m hm
    rw [parseLoop.eq_def] at hm
    simp at hm
  | case6 b0 b1 b2 b3 body m0 L nl hle ih =>
    intro m hm k hk
    rw [parseLoop_cons, if_pos rfl,
      if_pos ((by exact hle) :
        (toNat4 b0 b1 b2 b3 + 4294967296 - 8) % 4294967296 + 8 ≤ body.length)] at hm
    have hstep : (mapFind (mapInsert m0
        (body.take ((toNat4 b0 b1 b2 b3 + 4294967296 - 8) % 4294967296))
        (parsedVrd body ((toNat4 b0 b1 b2 b3 + 4294967296 - 8) % 4294967296))) k).isSome := by
      by_cases hkk : k = body.take ((toNat4 b0 b1 b2 b3 + 4294967296 - 8) % 4294967296)
      · rw [hkk, mapFind_mapInsert_self]
        rfl
      · rw [mapFind_mapInsert_ne _ _ _ _ hkk]
        exact hk
    exact ih m hm k hstep
  | case7 b0 b1 b2 b3 body m0 L nl hle =>
    intro m hm
    rw [parseLoop_cons, if_pos rfl,
      if_neg ((by exact hle) :
        ¬((toNat4 b0 b1 b2 b3 + 4294967296 - 8) % 4294967296 + 8 ≤ body.length))] at hm
    cases hm
  | case8 t b0 b1 b2 b3 body m0 L ht ih =>
    intro m hm k hk
    rw [parseLoop_cons, if_neg ht] at hm
    exact ih m hm k hk

/-- Unfolding of `genStep` at a pass-through tag. -/
theorem genStep_passTag (t b0 b1 b2 b3 : Nat) (body : List Nat) (m : VrdMap)
    (ht : t = 1 ∨ t = 4) :
    genStep t b0 b1 b2 b3 body m =
      (if toNat4 b0 b1 b2 b3 ≤ body.length then
        .ok (t :: toLE4 (toNat4 b0 b1 b2 b3) ++ body.take (toNat4 b0 b1 b2 b3))
      else .error .oob) := by
  simp only [genStep]
  rw [if_pos ht]

/-- Unfolding of `genStep` at an unrecognized tag. -/
theorem genStep_unknownTag (t b0 b1 b2 b3 : Nat) (body : List Nat) (m : VrdMap)
    (h1 : ¬(t = 1 ∨ t = 4)) (h2 : ¬(t = 2)) :
    genStep t b0 b1 b2 b3 body m = .error (.unknownTag t) := by
  simp only [genStep]
  rw [if_neg h1, if_neg h2]

/-- Over a byte buffer short enough that no placeholder length field wraps
around, a successful parse pass guarantees that the emission loop never
fails its catalog lookup: whatever name the emission re-decodes at a
placeholder record was inserted during parse from the same position, and
keys are never removed.  The conclusion holds for any catalog `m2` that
contains at least the keys of the parse result (payload injection
preserves keys). -/
theorem generateLoop_no_notFound (buf : List Nat) (m0 : VrdMap) :
    (∀ b ∈ buf, b < 256) → buf.length + 16 < 4294967296 →
    ∀ m, parseLoop buf m0 = some m →
    ∀ m2, (∀ k, (mapFind m k).isSome → (mapFind m2 k).isSome) →
    ∀ n, generateLoop buf m2 ≠ .error (.notFound n) := by
  induction buf, m0 using parseLoop.induct with
  | case1 m0 =>
    intro _ _ m hm m2 hk2 n
    rw [generateLoop_nil]
    simp
  | case2 a m0 =>
    intro _ _ m hm
    rw [parseLoop.eq_def] at hm
    simp at hm
  | case3 a b m0 =>
    intro _ _ m hm
    rw [parseLoop.eq_def] at hm
    simp at hm
  | case4 a b c m0 =>
    intro _ _ m hm
    rw [parseLoop.eq_def] at hm
    simp at hm
  | case5 a b c d m0 =>
    intro _ _ m hm
    rw [parseLoop.eq_def] at hm
    simp at hm
  | case6 b0 b1 b2 b3 body m0 L nl hle ih =>
    intro hbytes hlen m hm m2 hk2 n
    rw [parseLoop_cons, if_pos rfl,
      if_pos ((by exact hle) :
        (toNat4 b0 b1 b2 b3 + 4294967296 - 8) % 4294967296 + 8 ≤ body.length)] at hm
    have hb0 : b0 < 256 := hbytes b0 (by simp)
    have hb1 : b1 < 256 := hbytes b1 (by simp)
    have hb2 : b2 < 256 := hbytes b2 (by simp)
    have hb3 : b3 < 256 := hbytes b3 (by simp)
    have hL : toNat4 b0 b1 b2 b3 < 4294967296 := by unfold toNat4; omega
    have hlenb : body.length + 21 < 4294967296 := by
      simp only [List.length_cons] at hlen
      omega
    have hle' : (toNat4 b0 b1 b2 b3 + 4294967296 - 8) % 4294967296 + 8 ≤ body.length :=
      hle
    have hEeq : (toNat4 b0 b1 b2 b3 + 4294967296 - 8) % 4294967296 =
        toNat4 b0 b1 b2 b3 - 8 := by omega
    have h8 : 8 ≤ toNat4 b0 b1 b2 b3 := by omega
    have hbytes' : ∀ b ∈ body.drop
        ((toNat4 b0 b1 b2 b3 + 4294967296 - 8) % 4294967296 + 8), b < 256 :=
      fun b hb => hbytes b (by simp [List.mem_of_mem_drop hb])
    have hlen' : (body.drop
        ((toNat4 b0 b1 b2 b3 + 4294967296 - 8) % 4294967296 + 8)).length + 16 <
        4294967296 := by
      have hld := List.length_drop
        ((toNat4 b0 b1 b2 b3 + 4294967296 - 8) % 4294967296 + 8) body
      omega
    have hne := ih hbytes' hlen' m hm m2 hk2 n
    rw [generateLoop_cons, genStep_two]
    rw [if_pos (by omega :
      (toNat4 b0 b1 b2 b3 + 4294967296 - 8) % 4294967296 ≤ body.length)]
    have hname : (mapFind m2 (body.take
        ((toNat4 b0 b1 b2 b3 + 4294967296 - 8) % 4294967296))).isSome := by
      apply hk2
      apply parseLoop_keys _ _ m hm
      rw [mapFind_mapInsert_self]
      rfl
    have hdropEq : body.drop (toNat4 b0 b1 b2 b3) =
        body.drop ((toNat4 b0 b1 b2 b3 + 4294967296 - 8) % 4294967296 + 8) := by
      have h88 : (toNat4 b0 b1 b2 b3 + 4294967296 - 8) % 4294967296 + 8 =
          toNat4 b0 b1 b2 b3 := by omega
      rw [h88]
    rw [← hdropEq] at hne
    cases hfind : mapFind m2 (body.take
        ((toNat4 b0 b1 b2 b3 + 4294967296 - 8) % 4294967296)) with
    | none =>
      rw [hfind] at hname
      simp at hname
    | some v =>
      cases hgen : generateLoop (body.drop (toNat4 b0 b1 b2 b3)) m2 with
      | ok out => simp [Except.bind, Except.map]
      | error e =>
        rw [hgen] at hne
        simp [Except.bind, Except.map]
        exact fun hEq => hne (by rw [hEq])
  | case7 b0 b1 b2 b3 body m0 L nl hle =>
    intro _ _ m hm
    rw [parseLoop_cons, if_pos rfl,
      if_neg ((by exact hle) :
        ¬((toNat4 b0 b1 b2 b3 + 4294967296 - 8) % 4294967296 + 8 ≤ body.length))] at hm
    cases hm
  | case8 t b0 b1 b2 b3 body m0 L ht ih =>
    intro hbytes hlen m hm m2 hk2 n
    rw [parseLoop_cons, if_neg ((by exact ht) : ¬(t = 2))] at hm
    have hbytes' : ∀ b ∈ body.drop (toNat4 b0 b1 b2 b3), b < 256 :=
      fun b hb => hbytes b (by simp [List.mem_of_mem_drop hb])
    have hlen' : (body.drop (toNat4 b0 b1 b2 b3)).length + 16 < 4294967296 := by
      have hld := List.length_drop (toNat4 b0 b1 b2 b3) body
      simp only [List.length_cons] at hlen
      omega
    have hne := ih hbytes' hlen' m hm m2 hk2 n
    by_cases ht14 : t = 1 ∨ t = 4
    · rw [generateLoop_cons, genStep_passTag t b0 b1 b2 b3 body m2 ht14]
      by_cases hleb : toNat4 b0 b1 b2 b3 ≤ body.length
      · rw [if_pos hleb]
        cases hgen : generateLoop (body.drop (toNat4 b0 b1 b2 b3)) m2 with
        | ok out => simp [Except.bind, Except.map]
        | error e =>
          rw [hgen] at hne
          simp [Except.bind, Except.map]
          exact fun hEq => hne (by rw [hEq])
      · rw [if_neg hleb]
        simp [Except.bind]
    · rw [generateLoop_cons,
        genStep_unknownTag t b0 b1 b2 b3 body m2 ht14 ((by exact ht) : ¬(t = 2))]
      simp [Except.bind]

/-- A pass-through record is in particular skipped by the parse pass. -/
theorem WfPass.toSkip {r : SRec} (h : WfPass r) : WfSkip r := by
  obtain ⟨ht, hl, _⟩ := h
  refine ⟨?_, hl⟩
  rcases ht with h1 | h4
  · omega
  · omega

/-- Emission with a fully loaded catalog runs the emission loop. -/
theorem generate_init_sequence_run (a : AppInitializer)
    (h : checkLoaded a.vrd_map_ = none) :
    generate_init_sequence a = generateLoop a.binary_sequence_ a.vrd_map_ := by
  unfold generate_init_sequence
  rw [h]

/-- Emission with an unloaded catalog entry fails before any output byte is
assembled, naming the first unloaded entry. -/
theorem generate_init_sequence_unfilled (a : AppInitializer) (nm : List Nat)
    (h : checkLoaded a.vrd_map_ = some nm) :
    generate_init_sequence a = .error (.unfilled nm) := by
  unfold generate_init_sequence
  rw [h]

/-- A successful `load_vrd_data` call means the name was found, the payload
length matched the declared size exactly, and the new catalog is the
in-place update of that entry. -/
theorem load_ok_elim (m : VrdMap) (n d : List Nat) (m3 : VrdMap)
    (h : load_vrd_data m n d = .ok m3) :
    ∃ v, mapFind m n = some v ∧ d.length = v.size ∧ m3 = mapUpdate m n d := by
  cases hfind : mapFind m n with
  | none => simp [load_vrd_data, hfind] at h
  | some v =>
    by_cases hsz : d.length = v.size
    · refine ⟨v, rfl, hsz, ?_⟩
      simp [load_vrd_data, hfind, hsz] at h
      exact h.symm
    · simp [load_vrd_data, hfind, hsz] at h

/-- Full workflow on a buffer with exactly one placeholder declaration
among pass-through records: parse builds the one-entry catalog, injection
of an exact-size payload succeeds, and emission reproduces every
pass-through record verbatim while replacing the declaration, at its
position, by a DMA-write record with length field `S + 8` and body
`D || S || P`. -/
theorem pipeline_single_decl (pre post : List SRec) (name P : List Nat) (S D : Nat)
    (hpre : ∀ r ∈ pre, WfPass r) (hpost : ∀ r ∈ post, WfPass r)
    (hname : name.length + 8 < 4294967296) (hS : S < 4294967296) (hD : D < 4294967296)
    (hP : P.length = S) :
    mkAppInitializer (serialize (pre ++ declRec name S D :: post)) =
      some ⟨serialize (pre ++ declRec name S D :: post),
        [(name, ⟨name, S, D, [], false⟩)]⟩ ∧
    AppInitializer.load_vrd_data
        ⟨serialize (pre ++ declRec name S D :: post), [(name, ⟨name, S, D, [], false⟩)]⟩
        name P =
      .ok ⟨serialize (pre ++ declRec name S D :: post), [(name, ⟨name, S, D, P, true⟩)]⟩ ∧
    generate_init_sequence
        ⟨serialize (pre ++ declRec name S D :: post), [(name, ⟨name, S, D, P, true⟩)]⟩ =
      .ok (serialize pre ++
        (4 :: toLE4 (S + 8) ++ toLE4 D ++ toLE4 S ++ P) ++ serialize post) := by
  have hser : serialize (pre ++ declRec name S D :: post) =
      serialize pre ++ (serRec (declRec name S D) ++ serialize post) := by
    rw [serialize_append, serialize_cons]
  refine ⟨?_, ?_, ?_⟩
  · rw [mkAppInitializer, parse_binary_sequence, hser,
      parseLoop_serialize_skip pre _ [] (fun r hr => WfPass.toSkip (hpre r hr)),
      parseLoop_decl name S D _ [] hname hS hD,
      ← List.append_nil (serialize post),
      parseLoop_serialize_skip post _ _ (fun r hr => WfPass.toSkip (hpost r hr)),
      parseLoop_nil]
    rfl
  · unfold AppInitializer.load_vrd_data
    simp [load_vrd_data, mapFind, hP, mapUpdate]
  · rw [generate_init_sequence_run _ (by simp [checkLoaded]), hser]
    rw [generateLoop_serialize_pass pre _ _ hpre,
      generateLoop_decl name S D _ _ ⟨name, S, D, P, true⟩ hname (by simp [mapFind]),
      generateLoop_serialize_id post _ hpost]
    simp [Except.map, hP, List.append_assoc]

/-! ### Claim theorems -/

/-- C1: the spec says construction fails with a decode error whenever a
record's declared body length would place the cursor past the buffer end,
or when a placeholder-declaration record has `body_length < 8`.  The code
has no such checks: on the truncated direct-write record
`[0x01, 0x64, 0x00, 0x00, 0x00]` (declared body of 100 bytes, buffer ends
immediately), `pos += length` jumps past the end and parsing completes
successfully with an empty catalog; and on the placeholder-declaration
record `[0x02, 0x00, 0x00, 0x00, 0x00]` (`body_length = 0 < 8`), the
unsigned wraparound of `length - 8` makes the code read about 2^32 bytes
out of bounds (undefined behavior, modelled `none`), which is not a
reported decode error either. -/
theorem C1_parse_reports_no_decode_error :
    parse_binary_sequence [1, 100, 0, 0, 0] = some [] ∧
    parse_binary_sequence [2, 0, 0, 0, 0] = none := by
  constructor
  · rw [parse_binary_sequence, parseLoop_cons, if_neg (by omega : ¬((1 : Nat) = 2))]
    simp [toNat4, parseLoop_nil]
  · rw [parse_binary_sequence, parseLoop_cons, if_pos rfl]
    rw [if_neg (by norm_num [toNat4])]

/-- C3: for every well-formed input buffer composed only of direct-write
(tag 0x01) and transfer-write (tag 0x04) records, construction succeeds
with an empty catalog and emission succeeds, returning a byte buffer
identical byte-for-byte to the input buffer. -/
theorem C3_roundtrip_passthrough (rs : List SRec) (h : ∀ r ∈ rs, WfPass r) :
    mkAppInitializer (serialize rs) = some ⟨serialize rs, []⟩ ∧
    generate_init_sequence ⟨serialize rs, []⟩ = .ok (serialize rs) := by
  constructor
  · rw [mkAppInitializer, parse_binary_sequence, ← List.append_nil (serialize rs),
      parseLoop_serialize_skip rs [] [] (fun r hr => WfPass.toSkip (h r hr)),
      parseLoop_nil]
    rfl
  · rw [generate_init_sequence_run _ (by rfl)]
    exact generateLoop_serialize_id rs [] h

/-- Witness for C3: a concrete two-record buffer (a direct-write and a
transfer-write, the ones from the repository's test file) survives the
round trip unchanged. -/
theorem C3_roundtrip_passthrough_witness :
    mkAppInitializer (serialize [⟨1, [0, 16, 0, 0, 120, 86, 52, 18]⟩,
        ⟨4, [0, 48, 0, 0, 4, 0, 0, 0, 170, 187, 204, 221]⟩]) =
      some ⟨serialize [⟨1, [0, 16, 0, 0, 120, 86, 52, 18]⟩,
        ⟨4, [0, 48, 0, 0, 4, 0, 0, 0, 170, 187, 204, 221]⟩], []⟩ ∧
    generate_init_sequence ⟨serialize [⟨1, [0, 16, 0, 0, 120, 86, 52, 18]⟩,
        ⟨4, [0, 48, 0, 0, 4, 0, 0, 0, 170, 187, 204, 221]⟩], []⟩ =
      .ok (serialize [⟨1, [0, 16, 0, 0, 120, 86, 52, 18]⟩,
        ⟨4, [0, 48, 0, 0, 4, 0, 0, 0, 170, 187, 204, 221]⟩]) :=
  C3_roundtrip_passthrough _ (by decide)

/-- C4: when the catalog has an unfilled entry, emission fails with the
unfilled-placeholder error naming the first unfilled entry in catalog
iteration order (`List.find?` semantics), and does so for every buffer —
the check runs before a single output byte is assembled, so no partial
output exists. -/
theorem C4_unfilled_rejection (m : VrdMap) (p : List Nat × VrdInfo)
    (hfind : m.find? (fun q => !q.2.is_loaded) = some p) (buf : List Nat) :
    generate_init_sequence ⟨buf, m⟩ = .error (.unfilled p.1) := by
  apply generate_init_sequence_unfilled
  show checkLoaded m = some p.1
  rw [checkLoaded_eq_find, hfind]
  rfl

/-- Witness for C4: with two unfilled entries the error names the first
one in iteration order, even on a malformed buffer (whose bytes are never
inspected). -/
theorem C4_unfilled_rejection_witness :
    generate_init_sequence ⟨[9], [([5], ⟨[5], 2, 3, [], false⟩),
        ([7], ⟨[7], 4, 5, [], false⟩)]⟩ = .error (.unfilled [5]) :=
  C4_unfilled_rejection _ ([5], ⟨[5], 2, 3, [], false⟩) (by decide) [9]

/-- C5: injecting a payload whose length differs from the declared size
fails with the size-mismatch error (the catalog is not touched: both
throws in the C++ precede the assignments, and the model returns no new
catalog on error); injecting a payload of exactly the declared size
succeeds, stores the payload, and marks the entry loaded; a repeated
same-size injection succeeds again, overwrites the payload, and keeps the
entry loaded.  Name, size, and destination address are unchanged
throughout. -/
theorem C5_size_mismatch_and_idempotence (m : VrdMap) (name : List Nat) (v : VrdInfo)
    (dBad d1 d2 : List Nat) (hfind : mapFind m name = some v)
    (hbad : dBad.length ≠ v.size) (h1 : d1.length = v.size) (h2 : d2.length = v.size) :
    load_vrd_data m name dBad = .error (.sizeMismatch name v.size dBad.length) ∧
    load_vrd_data m name d1 = .ok (mapUpdate m name d1) ∧
    mapFind (mapUpdate m name d1) name = some ⟨v.name, v.size, v.dst_addr, d1, true⟩ ∧
    load_vrd_data (mapUpdate m name d1) name d2 =
      .ok (mapUpdate (mapUpdate m name d1) name d2) ∧
    mapFind (mapUpdate (mapUpdate m name d1) name d2) name =
      some ⟨v.name, v.size, v.dst_addr, d2, true⟩ := by
  have hu1 : mapFind (mapUpdate m name d1) name =
      some { v with data := d1, is_loaded := true } :=
    mapFind_mapUpdate_self m name v d1 hfind
  refine ⟨?_, ?_, ?_, ?_, ?_⟩
  · simp [load_vrd_data, hfind, hbad]
  · simp [load_vrd_data, hfind, h1]
  · rw [hu1]
  · simp [load_vrd_data, hu1, h2]
  · rw [mapFind_mapUpdate_self _ _ _ d2 hu1]

/-- Witness for C5: a concrete catalog with one declared entry of size 2
rejects a 1-byte payload and accepts two successive 2-byte payloads. -/
theorem C5_size_mismatch_and_idempotence_witness :
    load_vrd_data [([7], ⟨[7], 2, 9, [], false⟩)] [7] [1] =
      .error (.sizeMismatch [7] 2 1) ∧
    load_vrd_data [([7], ⟨[7], 2, 9, [], false⟩)] [7] [1, 2] =
      .ok (mapUpdate [([7], ⟨[7], 2, 9, [], false⟩)] [7] [1, 2]) ∧
    mapFind (mapUpdate [([7], ⟨[7], 2, 9, [], false⟩)] [7] [1, 2]) [7] =
      some ⟨[7], 2, 9, [1, 2], true⟩ ∧
    load_vrd_data (mapUpdate [([7], ⟨[7], 2, 9, [], false⟩)] [7] [1, 2]) [7] [3, 4] =
      .ok (mapUpdate (mapUpdate [([7], ⟨[7], 2, 9, [], false⟩)] [7] [1, 2]) [7] [3, 4]) ∧
    mapFind (mapUpdate (mapUpdate [([7], ⟨[7], 2, 9, [], false⟩)] [7] [1, 2]) [7] [3, 4]) [7] =
      some ⟨[7], 2, 9, [3, 4], true⟩ :=
  C5_size_mismatch_and_idempotence _ [7] ⟨[7], 2, 9, [], false⟩ [1] [1, 2] [3, 4]
    (by decide) (by decide) (by decide) (by decide)

/-- C2 (amended): for every input buffer of pass-through records containing
exactly one placeholder-declaration record with declared size `S` and
destination `D`, after injecting an `S`-byte payload `P`, emission
replaces the declaration, at its position, with a transfer-write (tag
0x04) record whose length field is `S + 8` and whose body is
`D (4 bytes LE) || S (4 bytes LE) || P`, and copies all other records
verbatim in their original order; the declaration record itself is never
copied to the output (though its byte pattern may still occur inside the
verbatim body of another record, which is what refutes the claim's
"appears nowhere" clause as literally stated). -/
theorem C2_placeholder_substitution (pre post : List SRec) (name P : List Nat)
    (S D : Nat) (hpre : ∀ r ∈ pre, WfPass r) (hpost : ∀ r ∈ post, WfPass r)
    (hname : name.length + 8 < 4294967296) (hS : S < 4294967296)
    (hD : D < 4294967296) (hP : P.length = S) :
    mkAppInitializer (serialize (pre ++ declRec name S D :: post)) =
      some ⟨serialize (pre ++ declRec name S D :: post),
        [(name, ⟨name, S, D, [], false⟩)]⟩ ∧
    AppInitializer.load_vrd_data
        ⟨serialize (pre ++ declRec name S D :: post), [(name, ⟨name, S, D, [], false⟩)]⟩
        name P =
      .ok ⟨serialize (pre ++ declRec name S D :: post), [(name, ⟨name, S, D, P, true⟩)]⟩ ∧
    generate_init_sequence
        ⟨serialize (pre ++ declRec name S D :: post), [(name, ⟨name, S, D, P, true⟩)]⟩ =
      .ok (serialize pre ++
        (4 :: toLE4 (S + 8) ++ toLE4 D ++ toLE4 S ++ P) ++ serialize post) :=
  pipeline_single_decl pre post name P S D hpre hpost hname hS hD hP

/-- Witness for the amended C2: a direct-write record, one placeholder of
size 2 and destination 7, and a transfer-write record; injecting `[9, 9]`
and emitting yields the DMA substitution between the verbatim copies. -/
theorem C2_placeholder_substitution_witness :
    mkAppInitializer (serialize ([⟨1, [5, 5]⟩] ++ declRec [66] 2 7 :: [⟨4, [6]⟩])) =
      some ⟨serialize ([⟨1, [5, 5]⟩] ++ declRec [66] 2 7 :: [⟨4, [6]⟩]),
        [([66], ⟨[66], 2, 7, [], false⟩)]⟩ ∧
    AppInitializer.load_vrd_data
        ⟨serialize ([⟨1, [5, 5]⟩] ++ declRec [66] 2 7 :: [⟨4, [6]⟩]),
          [([66], ⟨[66], 2, 7, [], false⟩)]⟩ [66] [9, 9] =
      .ok ⟨serialize ([⟨1, [5, 5]⟩] ++ declRec [66] 2 7 :: [⟨4, [6]⟩]),
        [([66], ⟨[66], 2, 7, [9, 9], true⟩)]⟩ ∧
    generate_init_sequence
        ⟨serialize ([⟨1, [5, 5]⟩] ++ declRec [66] 2 7 :: [⟨4, [6]⟩]),
          [([66], ⟨[66], 2, 7, [9, 9], true⟩)]⟩ =
      .ok (serialize [⟨1, [5, 5]⟩] ++
        (4 :: toLE4 (2 + 8) ++ toLE4 7 ++ toLE4 2 ++ [9, 9]) ++ serialize [⟨4, [6]⟩]) :=
  C2_placeholder_substitution [⟨1, [5, 5]⟩] [⟨4, [6]⟩] [66] [9, 9] 2 7 (by decide)
    (by decide) (by decide) (by decide) (by decide) (by decide)

/-- Counterexample to C2 as stated: the claim asserts that the original
declaration record's bytes appear nowhere in the output.  Take a buffer
whose first record is a direct-write (tag 0x01) record whose body happens
to be exactly the bytes of the placeholder-declaration record that
follows it.  The direct-write record is copied verbatim (as the claim
itself requires), so the declaration record's 17 bytes
`[2, 12, 0, 0, 0, 97, 98, 99, 100, 1, 0, 0, 0, 0, 0, 0, 0]` appear
contiguously in the successful output, refuting the "appear nowhere"
conjunct. -/
theorem C2_counterexample :
    mkAppInitializer
        [1, 17, 0, 0, 0, 2, 12, 0, 0, 0, 97, 98, 99, 100, 1, 0, 0, 0, 0, 0, 0, 0,
         2, 12, 0, 0, 0, 97, 98, 99, 100, 1, 0, 0, 0, 0, 0, 0, 0] =
      some ⟨[1, 17, 0, 0, 0, 2, 12, 0, 0, 0, 97, 98, 99, 100, 1, 0, 0, 0, 0, 0, 0, 0,
         2, 12, 0, 0, 0, 97, 98, 99, 100, 1, 0, 0, 0, 0, 0, 0, 0],
        [([97, 98, 99, 100], ⟨[97, 98, 99, 100], 1, 0, [], false⟩)]⟩ ∧
    AppInitializer.load_vrd_data
        ⟨[1, 17, 0, 0, 0, 2, 12, 0, 0, 0, 97, 98, 99, 100, 1, 0, 0, 0, 0, 0, 0, 0,
          2, 12, 0, 0, 0, 97, 98, 99, 100, 1, 0, 0, 0, 0, 0, 0, 0],
         [([97, 98, 99, 100], ⟨[97, 98, 99, 100], 1, 0, [], false⟩)]⟩
        [97, 98, 99, 100] [171] =
      .ok ⟨[1, 17, 0, 0, 0, 2, 12, 0, 0, 0, 97, 98, 99, 100, 1, 0, 0, 0, 0, 0, 0, 0,
          2, 12, 0, 0, 0, 97, 98, 99, 100, 1, 0, 0, 0, 0, 0, 0, 0],
         [([97, 98, 99, 100], ⟨[97, 98, 99, 100], 1, 0, [171], true⟩)]⟩ ∧
    generate_init_sequence
        ⟨[1, 17, 0, 0, 0, 2, 12, 0, 0, 0, 97, 98, 99, 100, 1, 0, 0, 0, 0, 0, 0, 0,
          2, 12, 0, 0, 0, 97, 98, 99, 100, 1, 0, 0, 0, 0, 0, 0, 0],
         [([97, 98, 99, 100], ⟨[97, 98, 99, 100], 1, 0, [171], true⟩)]⟩ =
      .ok [1, 17, 0, 0, 0, 2, 12, 0, 0, 0, 97, 98, 99, 100, 1, 0, 0, 0, 0, 0, 0, 0,
        4, 9, 0, 0, 0, 0, 0, 0, 0, 1, 0, 0, 0, 171] ∧
    [2, 12, 0, 0, 0, 97, 98, 99, 100, 1, 0, 0, 0, 0, 0, 0, 0] <:+:
      [1, 17, 0, 0, 0, 2, 12, 0, 0, 0, 97, 98, 99, 100, 1, 0, 0, 0, 0, 0, 0, 0,
        4, 9, 0, 0, 0, 0, 0, 0, 0, 1, 0, 0, 0, 171] := by
  have hb : ([1, 17, 0, 0, 0, 2, 12, 0, 0, 0, 97, 98, 99, 100, 1, 0, 0, 0, 0, 0, 0, 0,
      2, 12, 0, 0, 0, 97, 98, 99, 100, 1, 0, 0, 0, 0, 0, 0, 0] : List Nat) =
      serialize ([⟨1, serRec (declRec [97, 98, 99, 100] 1 0)⟩] ++
        declRec [97, 98, 99, 100] 1 0 :: []) := by decide
  have hout : ([1, 17, 0, 0, 0, 2, 12, 0, 0, 0, 97, 98, 99, 100, 1, 0, 0, 0, 0, 0, 0, 0,
      4, 9, 0, 0, 0, 0, 0, 0, 0, 1, 0, 0, 0, 171] : List Nat) =
      serialize [⟨1, serRec (declRec [97, 98, 99, 100] 1 0)⟩] ++
        (4 :: toLE4 (1 + 8) ++ toLE4 0 ++ toLE4 1 ++ [171]) ++ serialize [] := by decide
  obtain ⟨h1, h2, h3⟩ := pipeline_single_decl [⟨1, serRec (declRec [97, 98, 99, 100] 1 0)⟩]
    [] [97, 98, 99, 100] [171] 1 0 (by decide) (by decide) (by decide) (by decide)
    (by decide) (by decide)
  refine ⟨?_, ?_, ?_, by decide⟩
  · rw [hb]
    exact h1
  · rw [hb]
    exact h2
  · rw [hb, hout]
    exact h3

/-- C6: a record with the legacy-binary tag 0x03 — or any tag other than
0x01, 0x02, 0x04 — parses successfully during construction (its body is
skipped like any non-placeholder record), but emission over the same
buffer fails with the unknown-record-kind error reporting the numeric tag
value. -/
theorem C6_legacy_rejected_only_at_emission (pre post : List SRec) (t : Nat)
    (body : List Nat) (hpre : ∀ r ∈ pre, WfPass r) (hpost : ∀ r ∈ post, WfSkip r)
    (ht1 : ¬(t = 1)) (ht2 : ¬(t = 2)) (ht4 : ¬(t = 4))
    (hlen : body.length < 4294967296) :
    mkAppInitializer (serialize (pre ++ (⟨t, body⟩ : SRec) :: post)) =
      some ⟨serialize (pre ++ (⟨t, body⟩ : SRec) :: post), []⟩ ∧
    generate_init_sequence ⟨serialize (pre ++ (⟨t, body⟩ : SRec) :: post), []⟩ =
      .error (.unknownTag t) := by
  have hser : serialize (pre ++ (⟨t, body⟩ : SRec) :: post) =
      serialize pre ++ (serRec ⟨t, body⟩ ++ serialize post) := by
    rw [serialize_append, serialize_cons]
  constructor
  · rw [mkAppInitializer, parse_binary_sequence, hser,
      parseLoop_serialize_skip pre _ [] (fun r hr => WfPass.toSkip (hpre r hr)),
      parseLoop_skip ⟨t, body⟩ _ [] ht2 hlen,
      ← List.append_nil (serialize post),
      parseLoop_serialize_skip post _ _ hpost,
      parseLoop_nil]
    rfl
  · rw [generate_init_sequence_run _ (by rfl), hser,
      generateLoop_serialize_pass pre _ _ hpre,
      generateLoop_unknown ⟨t, body⟩ _ _ ht1 ht2 ht4]
    simp [Except.map]

/-- Witness for C6: a buffer with a direct-write record followed by a
legacy-binary (tag 0x03) record parses, and emission reports
unknown-record-kind 3. -/
theorem C6_legacy_rejected_only_at_emission_witness :
    mkAppInitializer (serialize ([⟨1, [0, 0, 0, 0, 0, 0, 0, 0]⟩] ++
        (⟨3, [7, 7]⟩ : SRec) :: [])) =
      some ⟨serialize ([⟨1, [0, 0, 0, 0, 0, 0, 0, 0]⟩] ++ (⟨3, [7, 7]⟩ : SRec) :: []), []⟩ ∧
    generate_init_sequence
        ⟨serialize ([⟨1, [0, 0, 0, 0, 0, 0, 0, 0]⟩] ++ (⟨3, [7, 7]⟩ : SRec) :: []), []⟩ =
      .error (.unknownTag 3) :=
  C6_legacy_rejected_only_at_emission _ _ 3 [7, 7] (by decide) (by decide)
    (by decide) (by decide) (by decide) (by decide)

/-- C7: when a buffer contains two placeholder-declaration records with the
same name, parsing keeps only the later declaration's size and destination
address in the catalog (last-one-wins: the catalog has one entry for the
name, so the count rises by one, not two), and a subsequent injection plus
emission uses the later declaration's size and address for the substituted
transfer-write records (emission substitutes at each declaration position,
each time from the single surviving catalog entry). -/
theorem C7_duplicate_name_overwrites (pre mid post : List SRec) (n P : List Nat)
    (S1 D1 S2 D2 : Nat)
    (hpre : ∀ r ∈ pre, WfPass r) (hmid : ∀ r ∈ mid, WfPass r)
    (hpost : ∀ r ∈ post, WfPass r)
    (hn : n.length + 8 < 4294967296)
    (hS1 : S1 < 4294967296) (hD1 : D1 < 4294967296)
    (hS2 : S2 < 4294967296) (hD2 : D2 < 4294967296)
    (hP : P.length = S2) :
    mkAppInitializer
        (serialize (pre ++ declRec n S1 D1 :: mid ++ declRec n S2 D2 :: post)) =
      some ⟨serialize (pre ++ declRec n S1 D1 :: mid ++ declRec n S2 D2 :: post),
        [(n, ⟨n, S2, D2, [], false⟩)]⟩ ∧
    get_vrd_count ⟨serialize (pre ++ declRec n S1 D1 :: mid ++ declRec n S2 D2 :: post),
        [(n, ⟨n, S2, D2, [], false⟩)]⟩ = 1 ∧
    AppInitializer.load_vrd_data
        ⟨serialize (pre ++ declRec n S1 D1 :: mid ++ declRec n S2 D2 :: post),
          [(n, ⟨n, S2, D2, [], false⟩)]⟩ n P =
      .ok ⟨serialize (pre ++ declRec n S1 D1 :: mid ++ declRec n S2 D2 :: post),
        [(n, ⟨n, S2, D2, P, true⟩)]⟩ ∧
    generate_init_sequence
        ⟨serialize (pre ++ declRec n S1 D1 :: mid ++ declRec n S2 D2 :: post),
          [(n, ⟨n, S2, D2, P, true⟩)]⟩ =
      .ok (serialize pre ++ (4 :: toLE4 (S2 + 8) ++ toLE4 D2 ++ toLE4 S2 ++ P) ++
        serialize mid ++ (4 :: toLE4 (S2 + 8) ++ toLE4 D2 ++ toLE4 S2 ++ P) ++
        serialize post) := by
  have hser : serialize (pre ++ declRec n S1 D1 :: mid ++ declRec n S2 D2 :: post) =
      serialize pre ++ (serRec (declRec n S1 D1) ++ (serialize mid ++
        (serRec (declRec n S2 D2) ++ serialize post))) := by
    rw [serialize_append, serialize_cons, serialize_append, serialize_cons]
    simp [List.append_assoc]
  refine ⟨?_, rfl, ?_, ?_⟩
  · rw [mkAppInitializer, parse_binary_sequence, hser,
      parseLoop_serialize_skip pre _ [] (fun r hr => WfPass.toSkip (hpre r hr)),
      parseLoop_decl n S1 D1 _ [] hn hS1 hD1,
      parseLoop_serialize_skip mid _ _ (fun r hr => WfPass.toSkip (hmid r hr)),
      parseLoop_decl n S2 D2 _ _ hn hS2 hD2,
      ← List.append_nil (serialize post),
      parseLoop_serialize_skip post _ _ (fun r hr => WfPass.toSkip (hpost r hr)),
      parseLoop_nil]
    simp [mapInsert]
  · unfold AppInitializer.load_vrd_data
    simp [load_vrd_data, mapFind, hP, mapUpdate]
  · rw [generate_init_sequence_run _ (by rfl), hser,
      generateLoop_serialize_pass pre _ _ hpre,
      generateLoop_decl n S1 D1 _ _ ⟨n, S2, D2, P, true⟩ hn (by simp [mapFind]),
      generateLoop_serialize_pass mid _ _ hmid,
      generateLoop_decl n S2 D2 _ _ ⟨n, S2, D2, P, true⟩ hn (by simp [mapFind]),
      generateLoop_serialize_id post _ hpost]
    simp [Except.map, hP, List.append_assoc]

/-- Witness for C7: two declarations of the name `[65]`, first with size 1
and address 5, then with size 2 and address 6; the catalog keeps size 2
and address 6, a 2-byte payload loads, and emission substitutes both
positions using the later declaration. -/
theorem C7_duplicate_name_overwrites_witness :
    mkAppInitializer (serialize ([] ++ declRec [65] 1 5 :: [] ++
        declRec [65] 2 6 :: [])) =
      some ⟨serialize ([] ++ declRec [65] 1 5 :: [] ++ declRec [65] 2 6 :: []),
        [([65], ⟨[65], 2, 6, [], false⟩)]⟩ ∧
    get_vrd_count ⟨serialize ([] ++ declRec [65] 1 5 :: [] ++ declRec [65] 2 6 :: []),
        [([65], ⟨[65], 2, 6, [], false⟩)]⟩ = 1 ∧
    AppInitializer.load_vrd_data
        ⟨serialize ([] ++ declRec [65] 1 5 :: [] ++ declRec [65] 2 6 :: []),
          [([65], ⟨[65], 2, 6, [], false⟩)]⟩ [65] [7, 8] =
      .ok ⟨serialize ([] ++ declRec [65] 1 5 :: [] ++ declRec [65] 2 6 :: []),
        [([65], ⟨[65], 2, 6, [7, 8], true⟩)]⟩ ∧
    generate_init_sequence
        ⟨serialize ([] ++ declRec [65] 1 5 :: [] ++ declRec [65] 2 6 :: []),
          [([65], ⟨[65], 2, 6, [7, 8], true⟩)]⟩ =
      .ok (serialize [] ++ (4 :: toLE4 (2 + 8) ++ toLE4 6 ++ toLE4 2 ++ [7, 8]) ++
        serialize [] ++ (4 :: toLE4 (2 + 8) ++ toLE4 6 ++ toLE4 2 ++ [7, 8]) ++
        serialize []) :=
  C7_duplicate_name_overwrites [] [] [] [65] [7, 8] 1 5 2 6 (by decide) (by decide)
    (by decide) (by decide) (by decide) (by decide) (by decide) (by decide) (by decide)

/-- C8: every catalog entry satisfies the invariant that a loaded entry's
payload length equals its declared size.  The invariant holds after
construction (all parsed entries start unloaded with empty payloads) and
is preserved by every successful injection, which moreover never changes
the name, declared size, or destination address of any entry.  A failing
injection returns an error and no catalog (the C++ throws before its
assignments), and emission is `const` — in this functional model it reads
the state and returns only the output buffer — so neither can break the
invariant. -/
theorem C8_catalog_invariant (buf : List Nat) (m : VrdMap)
    (hparse : parse_binary_sequence buf = some m)
    (m2 : VrdMap) (n d : List Nat) (m3 : VrdMap) (hinv2 : CatalogInv m2)
    (hload : load_vrd_data m2 n d = .ok m3) (k : List Nat) :
    CatalogInv m ∧ CatalogInv m3 ∧
    (mapFind m3 k).map (fun v => (v.name, v.size, v.dst_addr)) =
      (mapFind m2 k).map (fun v => (v.name, v.size, v.dst_addr)) := by
  obtain ⟨v, hfind, hsz, hm3⟩ := load_ok_elim m2 n d m3 hload
  refine ⟨?_, ?_, ?_⟩
  · exact parseLoop_inv buf [] (by intro p hp; simp at hp) m hparse
  · rw [hm3]
    exact mapUpdate_inv m2 n v d hinv2 hfind hsz
  · rw [hm3]
    exact mapUpdate_fixed m2 n k d

/-- Witness for C8: parsing one declaration record yields an invariant
catalog, and loading an exact-size payload preserves the invariant and
keeps name, size, and address. -/
theorem C8_catalog_invariant_witness :
    CatalogInv [([7], ⟨[7], 1, 2, [], false⟩)] ∧
    CatalogInv [([7], ⟨[7], 1, 2, [9], true⟩)] ∧
    (mapFind [([7], ⟨[7], 1, 2, [9], true⟩)] [7]).map
        (fun v => (v.name, v.size, v.dst_addr)) =
      (mapFind [([7], ⟨[7], 1, 2, [], false⟩)] [7]).map
        (fun v => (v.name, v.size, v.dst_addr)) := by
  have hparse : parse_binary_sequence
      [2, 9, 0, 0, 0, 7, 1, 0, 0, 0, 2, 0, 0, 0] =
      some [([7], ⟨[7], 1, 2, [], false⟩)] := by
    rw [show ([2, 9, 0, 0, 0, 7, 1, 0, 0, 0, 2, 0, 0, 0] : List Nat) =
      serRec (declRec [7] 1 2) ++ [] from by decide]
    rw [parse_binary_sequence,
      parseLoop_decl [7] 1 2 [] [] (by norm_num) (by norm_num) (by norm_num),
      parseLoop_nil]
    rfl
  have hload : load_vrd_data [([7], ⟨[7], 1, 2, [], false⟩)] [7] [9] =
      .ok [([7], ⟨[7], 1, 2, [9], true⟩)] := by rfl
  exact C8_catalog_invariant _ _ hparse _ [7] [9] _ (by decide) hload [7]

/-- C10: a successful injection for name `n` modifies only entry `n`'s
payload and loaded flag: the buffer is untouched, the catalog's key list
(and hence key set and iteration order) is unchanged, entry `n` keeps its
name, declared size, and destination address, and every entry with a
different name is completely unchanged. -/
theorem C10_injection_frame (a : AppInitializer) (n d : List Nat)
    (a2 : AppInitializer) (hload : a.load_vrd_data n d = .ok a2)
    (v : VrdInfo) (hfind : mapFind a.vrd_map_ n = some v)
    (k : List Nat) (hk : k ≠ n) :
    a2.binary_sequence_ = a.binary_sequence_ ∧
    a2.vrd_map_.map Prod.fst = a.vrd_map_.map Prod.fst ∧
    mapFind a2.vrd_map_ n = some ⟨v.name, v.size, v.dst_addr, d, true⟩ ∧
    mapFind a2.vrd_map_ k = mapFind a.vrd_map_ k := by
  unfold AppInitializer.load_vrd_data at hload
  cases hl : load_vrd_data a.vrd_map_ n d with
  | error e =>
    rw [hl] at hload
    cases hload
  | ok m3 =>
    rw [hl] at hload
    cases hload
    obtain ⟨v2, hf2, hsz, hm3⟩ := load_ok_elim _ _ _ _ hl
    rw [hfind] at hf2
    cases hf2
    refine ⟨rfl, ?_, ?_, ?_⟩
    · show m3.map Prod.fst = _
      rw [hm3]
      exact mapUpdate_keys _ _ _
    · show mapFind m3 n = _
      rw [hm3, mapFind_mapUpdate_self _ _ _ _ hfind]
    · show mapFind m3 k = _
      rw [hm3, mapFind_mapUpdate_ne _ _ _ _ hk]

/-- Witness for C10: loading a 1-byte payload for `[7]` in a two-entry
catalog leaves the buffer, the key list, and the other entry `[8]`
unchanged. -/
theorem C10_injection_frame_witness :
    (⟨[1, 2, 3], [([7], ⟨[7], 1, 2, [9], true⟩), ([8], ⟨[8], 4, 5, [], false⟩)]⟩ :
        AppInitializer).binary_sequence_ =
      (⟨[1, 2, 3], [([7], ⟨[7], 1, 2, [], false⟩), ([8], ⟨[8], 4, 5, [], false⟩)]⟩ :
        AppInitializer).binary_sequence_ ∧
    (⟨[1, 2, 3], [([7], ⟨[7], 1, 2, [9], true⟩), ([8], ⟨[8], 4, 5, [], false⟩)]⟩ :
        AppInitializer).vrd_map_.map Prod.fst =
      (⟨[1, 2, 3], [([7], ⟨[7], 1, 2, [], false⟩), ([8], ⟨[8], 4, 5, [], false⟩)]⟩ :
        AppInitializer).vrd_map_.map Prod.fst ∧
    mapFind [([7], ⟨[7], 1, 2, [9], true⟩), ([8], ⟨[8], 4, 5, [], false⟩)] [7] =
      some ⟨[7], 1, 2, [9], true⟩ ∧
    mapFind [([7], ⟨[7], 1, 2, [9], true⟩), ([8], ⟨[8], 4, 5, [], false⟩)] [8] =
      mapFind [([7], ⟨[7], 1, 2, [], false⟩), ([8], ⟨[8], 4, 5, [], false⟩)] [8] :=
  C10_injection_frame
    ⟨[1, 2, 3], [([7], ⟨[7], 1, 2, [], false⟩), ([8], ⟨[8], 4, 5, [], false⟩)]⟩
    [7] [9]
    ⟨[1, 2, 3], [([7], ⟨[7], 1, 2, [9], true⟩), ([8], ⟨[8], 4, 5, [], false⟩)]⟩
    (by rfl) ⟨[7], 1, 2, [], false⟩ (by rfl) [8] (by decide)

/-- C9 (amended): for every byte buffer shorter than 2^32 − 16 bytes on
which construction succeeds, the catalog lookup performed during emission
for each placeholder-declaration record never fails: the name decoded from
the record at that position during emission is always a key present in the
catalog, because the parse pass decoded the same name from the same
position and inserted it (and neither later parsing nor payload injection
removes keys).  The size bound is necessary: on buffers of 2^32 bytes and
more, a placeholder record whose length field is below 8 makes the parse
cursor (advanced by the wrapped-around name length) and the emission
cursor (advanced by the raw length field) diverge, after which emission
can decode a name that parse never saw. -/
theorem C9_emission_lookup_safe (buf : List Nat) (hbytes : ∀ b ∈ buf, b < 256)
    (hsize : buf.length + 16 < 4294967296) (m : VrdMap)
    (hparse : parse_binary_sequence buf = some m) (m2 : VrdMap)
    (hkeys : ∀ k, (mapFind m k).isSome → (mapFind m2 k).isSome) (n : List Nat) :
    generate_init_sequence ⟨buf, m2⟩ ≠ .error (.notFound n) := by
  cases hc : checkLoaded m2 with
  | some nm =>
    rw [generate_init_sequence_unfilled ⟨buf, m2⟩ nm hc]
    simp
  | none =>
    rw [generate_init_sequence_run ⟨buf, m2⟩ hc]
    exact generateLoop_no_notFound buf [] hbytes hsize m hparse m2 hkeys n

/-- Witness for the amended C9: a buffer with one declaration record;
emission with the parse catalog never reports a failed lookup. -/
theorem C9_emission_lookup_safe_witness :
    generate_init_sequence ⟨[2, 9, 0, 0, 0, 8, 1, 0, 0, 0, 3, 0, 0, 0],
        [([8], ⟨[8], 1, 3, [], false⟩)]⟩ ≠ .error (.notFound [5]) := by
  have hparse : parse_binary_sequence [2, 9, 0, 0, 0, 8, 1, 0, 0, 0, 3, 0, 0, 0] =
      some [([8], ⟨[8], 1, 3, [], false⟩)] := by
    rw [show ([2, 9, 0, 0, 0, 8, 1, 0, 0, 0, 3, 0, 0, 0] : List Nat) =
      serRec (declRec [8] 1 3) ++ [] from by decide]
    rw [parse_binary_sequence,
      parseLoop_decl [8] 1 3 [] [] (by norm_num) (by norm_num) (by norm_num),
      parseLoop_nil]
    rfl
  exact C9_emission_lookup_safe _ (by decide) (by decide) _ hparse _ (fun k h => h) [5]

/-- Head-lookup lemma that avoids evaluating the key equality. -/
theorem mapFind_cons_self (k : List Nat) (v : VrdInfo) (rest : VrdMap) :
    mapFind ((k, v) :: rest) k = some v := by
  show (if k = k then some v else mapFind rest k) = some v
  rw [if_pos rfl]

/-- Head-miss lemma that avoids evaluating the key equality. -/
theorem mapFind_cons_ne (k k2 : List Nat) (v : VrdInfo) (rest : VrdMap)
    (h : ¬(k = k2)) : mapFind ((k, v) :: rest) k2 = mapFind rest k2 := by
  show (if k = k2 then some v else mapFind rest k2) = mapFind rest k2
  rw [if_neg h]

/-- Head-update lemma that avoids evaluating the key equality. -/
theorem mapUpdate_cons_self (k : List Nat) (v : VrdInfo) (rest : VrdMap)
    (d : List Nat) :
    mapUpdate ((k, v) :: rest) k d =
      (k, { v with data := d, is_loaded := true }) :: rest := by
  show (if k = k then (k, { v with data := d, is_loaded := true }) :: rest
    else (k, v) :: mapUpdate rest k d) = _
  rw [if_pos rfl]

/-- Successful-injection equation in terms of its preconditions. -/
theorem load_vrd_data_eq (m : VrdMap) (nm d : List Nat) (v : VrdInfo)
    (hfind : mapFind m nm = some v) (hsz : d.length = v.size) :
    load_vrd_data m nm d = .ok (mapUpdate m nm d) := by
  unfold load_vrd_data
  rw [hfind]
  dsimp only
  rw [if_neg (fun hh => hh hsz)]

/-- Bind of a success, stated to avoid kernel evaluation of closed terms. -/
theorem except_ok_bind (x : List Nat) (f : List Nat → Except GenErr (List Nat)) :
    (Except.ok x : Except GenErr (List Nat)).bind f = f x := rfl

/-- Bind of an error, stated to avoid kernel evaluation of closed terms. -/
theorem except_error_bind (e : GenErr) (f : List Nat → Except GenErr (List Nat)) :
    (Except.error e : Except GenErr (List Nat)).bind f = .error e := rfl

/-- Map over an error, stated to avoid kernel evaluation of closed terms. -/
theorem except_error_map (e : GenErr) (f : List Nat → List Nat) :
    Except.map f (Except.error e : Except GenErr (List Nat)) = .error e := rfl

/-- `genStep` at tag 2 when the lookup misses: the not-found error. -/
theorem genStep_two_notFound (b0 b1 b2 b3 : Nat) (body : List Nat) (m : VrdMap)
    (hle : (toNat4 b0 b1 b2 b3 + 4294967296 - 8) % 4294967296 ≤ body.length)
    (hfind : mapFind m
      (body.take ((toNat4 b0 b1 b2 b3 + 4294967296 - 8) % 4294967296)) = none) :
    genStep 2 b0 b1 b2 b3 body m =
      .error (.notFound
        (body.take ((toNat4 b0 b1 b2 b3 + 4294967296 - 8) % 4294967296))) := by
  rw [genStep_two, if_pos hle, hfind]

/-- `genStep` at tag 2 when the lookup hits: the emitted DMA-write bytes. -/
theorem genStep_two_found (b0 b1 b2 b3 : Nat) (body : List Nat) (m : VrdMap)
    (v : VrdInfo)
    (hle : (toNat4 b0 b1 b2 b3 + 4294967296 - 8) % 4294967296 ≤ body.length)
    (hfind : mapFind m
      (body.take ((toNat4 b0 b1 b2 b3 + 4294967296 - 8) % 4294967296)) = some v) :
    genStep 2 b0 b1 b2 b3 body m =
      .ok (4 :: toLE4 (v.data.length + 8) ++ toLE4 v.dst_addr ++
        toLE4 v.data.length ++ v.data) := by
  rw [genStep_two, if_pos hle, hfind]

/-- Object-level injection success in terms of the catalog-level equation,
stated symbolically so that instantiating it at closed arguments requires
no evaluation. -/
theorem loadVrdDataObj_ok (buf : List Nat) (m m2 : VrdMap)
    (n d : List Nat) (h : load_vrd_data m n d = .ok m2) :
    AppInitializer.load_vrd_data ⟨buf, m⟩ n d = .ok ⟨buf, m2⟩ := by
  unfold AppInitializer.load_vrd_data
  dsimp only
  rw [h]

/-- Body of the counterexample buffer for C9: the body of a
placeholder-declaration record whose length field is 0.  The wrapped
name length `(0 - 8) mod 2^32 = 4294967288` makes parse read the first
4294967288 bytes as the name and the final 8 bytes (zeros) as size 0 and
destination 0.  The body begins with bytes that emission — whose cursor
advances by the raw length field 0 instead — will re-read as a second
placeholder record with the 1-byte name `[7]`. -/
def c9body : List Nat := 2 :: 9 :: 0 :: 0 :: 0 :: 7 :: List.replicate 4294967290 0

/-- The full 2^32 + 5 byte counterexample buffer for C9: one
placeholder-declaration record with length field 0. -/
def c9buf : List Nat := 2 :: 0 :: 0 :: 0 :: 0 :: c9body

/-- The 4294967288-byte name the parse pass decodes from `c9buf`. -/
def c9name : List Nat := c9body.take 4294967288

theorem c9body_length : c9body.length = 4294967296 := by
  show (2 :: 9 :: 0 :: 0 :: 0 :: 7 :: List.replicate 4294967290 0).length = 4294967296
  rw [List.length_cons, List.length_cons, List.length_cons, List.length_cons,
    List.length_cons, List.length_cons, List.length_replicate]

theorem c9name_length : c9name.length = 4294967288 := by
  show (c9body.take 4294967288).length = 4294967288
  rw [List.length_take, c9body_length]
  omega

theorem c9body_getD (i : Nat) (h6 : 6 ≤ i) (hlt : i < 4294967296) :
    c9body.getD i 0 = 0 := by
  rw [show c9body = [2, 9, 0, 0, 0, 7] ++ List.replicate 4294967290 0 from rfl,
    List.getD_append_right _ _ _ _ (by simpa using h6),
    List.getD_eq_getElem _ _ (by
      rw [List.length_replicate, show ([2, 9, 0, 0, 0, 7] : List Nat).length = 6 from rfl]
      omega)]
  simp only [List.getElem_replicate]

theorem c9_parse : parse_binary_sequence c9buf =
    some [(c9name, ⟨c9name, 0, 0, [], false⟩)] := by
  rw [parse_binary_sequence]
  show parseLoop (2 :: 0 :: 0 :: 0 :: 0 :: c9body) [] = _
  rw [parseLoop_cons, if_pos rfl]
  have he : (toNat4 0 0 0 0 + 4294967296 - 8) % 4294967296 = 4294967288 := by
    norm_num [toNat4]
  rw [he]
  rw [if_pos (by rw [c9body_length] : (4294967288 : Nat) + 8 ≤ c9body.length)]
  have hdrop : c9body.drop (4294967288 + 8) = [] := by
    apply List.drop_eq_nil_of_le
    rw [c9body_length]
  have hpv : parsedVrd c9body 4294967288 = ⟨c9name, 0, 0, [], false⟩ := by
    unfold parsedVrd
    rw [c9body_getD 4294967288 (by norm_num) (by norm_num),
      c9body_getD (4294967288 + 1) (by norm_num) (by norm_num),
      c9body_getD (4294967288 + 2) (by norm_num) (by norm_num),
      c9body_getD (4294967288 + 3) (by norm_num) (by norm_num),
      c9body_getD (4294967288 + 4) (by norm_num) (by norm_num),
      c9body_getD (4294967288 + 5) (by norm_num) (by norm_num),
      c9body_getD (4294967288 + 6) (by norm_num) (by norm_num),
      c9body_getD (4294967288 + 7) (by norm_num) (by norm_num)]
    rw [show toNat4 0 0 0 0 = 0 from by norm_num [toNat4]]
    rfl
  rw [hdrop, hpv, parseLoop_nil]
  rfl

theorem c9_load :
    AppInitializer.load_vrd_data ⟨c9buf, [(c9name, ⟨c9name, 0, 0, [], false⟩)]⟩
      c9name [] =
    .ok ⟨c9buf, [(c9name, ⟨c9name, 0, 0, [], true⟩)]⟩ := by
  apply loadVrdDataObj_ok
  rw [load_vrd_data_eq [(c9name, ⟨c9name, 0, 0, [], false⟩)] c9name []
    ⟨c9name, 0, 0, [], false⟩
    (mapFind_cons_self c9name ⟨c9name, 0, 0, [], false⟩ []) rfl,
    mapUpdate_cons_self]

theorem c9_generate :
    generate_init_sequence ⟨c9buf, [(c9name, ⟨c9name, 0, 0, [], true⟩)]⟩ =
      .error (.notFound [7]) := by
  rw [generate_init_sequence_run _ (by rfl)]
  show generateLoop (2 :: 0 :: 0 :: 0 :: 0 :: c9body)
    [(c9name, ⟨c9name, 0, 0, [], true⟩)] = _
  rw [generateLoop_cons]
  have hle0 : (toNat4 0 0 0 0 + 4294967296 - 8) % 4294967296 ≤ c9body.length := by
    rw [c9body_length]
    norm_num [toNat4]
  have hfind0 : mapFind [(c9name, ⟨c9name, 0, 0, [], true⟩)]
      (c9body.take ((toNat4 0 0 0 0 + 4294967296 - 8) % 4294967296)) =
      some ⟨c9name, 0, 0, [], true⟩ := by
    rw [show (toNat4 0 0 0 0 + 4294967296 - 8) % 4294967296 = 4294967288 from by
      norm_num [toNat4]]
    rw [show c9body.take 4294967288 = c9name from rfl]
    exact mapFind_cons_self c9name ⟨c9name, 0, 0, [], true⟩ []
  rw [genStep_two_found 0 0 0 0 c9body _ ⟨c9name, 0, 0, [], true⟩ hle0 hfind0,
    except_ok_bind]
  rw [show toNat4 0 0 0 0 = 0 from by norm_num [toNat4], List.drop_zero]
  have hne : ¬(c9name = [7]) := by
    intro h
    have h1 : c9name.length = 1 := by rw [h]; rfl
    rw [c9name_length] at h1
    omega
  have hgenBody : generateLoop c9body [(c9name, ⟨c9name, 0, 0, [], true⟩)] =
      .error (.notFound [7]) := by
    show generateLoop (2 :: 9 :: 0 :: 0 :: 0 :: (7 :: List.replicate 4294967290 0))
      [(c9name, ⟨c9name, 0, 0, [], true⟩)] = _
    rw [generateLoop_cons]
    have hle9 : (toNat4 9 0 0 0 + 4294967296 - 8) % 4294967296 ≤
        (7 :: List.replicate 4294967290 0).length := by
      rw [show (toNat4 9 0 0 0 + 4294967296 - 8) % 4294967296 = 1 from by
        norm_num [toNat4], List.length_cons]
      omega
    have hfind9 : mapFind [(c9name, ⟨c9name, 0, 0, [], true⟩)]
        ((7 :: List.replicate 4294967290 0).take
          ((toNat4 9 0 0 0 + 4294967296 - 8) % 4294967296)) = none := by
      rw [show (toNat4 9 0 0 0 + 4294967296 - 8) % 4294967296 = 1 from by
        norm_num [toNat4]]
      rw [show (7 :: List.replicate 4294967290 0).take 1 = [7] from rfl]
      rw [mapFind_cons_ne c9name [7] ⟨c9name, 0, 0, [], true⟩ [] hne]
      exact rfl
    rw [genStep_two_notFound 9 0 0 0 _ _ hle9 hfind9, except_error_bind]
    rw [show ((7 :: List.replicate 4294967290 0).take
      ((toNat4 9 0 0 0 + 4294967296 - 8) % 4294967296)) = [7] from by
      rw [show (toNat4 9 0 0 0 + 4294967296 - 8) % 4294967296 = 1 from by
        norm_num [toNat4]]
      exact rfl]
  rw [hgenBody, except_error_map]

/-- Counterexample to C9 as stated: on the 2^32 + 5 byte buffer `c9buf`
(one placeholder-declaration record whose length field is 0), construction
succeeds — the unsigned wraparound of `length - 8` makes parse treat the
first 4294967288 body bytes as the name — and the single catalog entry can
be filled (declared size 0).  But emission advances its cursor by the raw
length field 0 instead of the wrapped name length, re-enters the record
body at offset 5, decodes a placeholder record with name `[7]` there, and
its catalog lookup fails: `generate_init_sequence` returns the not-found
error, refuting the claim that the lookup never fails on every buffer on
which construction succeeds. -/
theorem C9_counterexample :
    parse_binary_sequence c9buf = some [(c9name, ⟨c9name, 0, 0, [], false⟩)] ∧
    AppInitializer.load_vrd_data ⟨c9buf, [(c9name, ⟨c9name, 0, 0, [], false⟩)]⟩
        c9name [] =
      .ok ⟨c9buf, [(c9name, ⟨c9name, 0, 0, [], true⟩)]⟩ ∧
    generate_init_sequence ⟨c9buf, [(c9name, ⟨c9name, 0, 0, [], true⟩)]⟩ =
      .error (.notFound [7]) :=
  ⟨c9_parse, c9_load, c9_generate⟩

end App
